import Mathlib

/-!
# A shallow embedding of the Chat-App server

This file embeds the request handlers of `src/chat-app/server.js` (and the
username-validation logic of `src/public/js/main.js`) as pure Lean functions,
and proves properties of them.

Modelling conventions:

* The Redis/Valkey store is modelled in memory.  A Redis list is a Lean
  `List` whose *head* is the most recently `LPUSH`ed element; `LRANGE` is
  modelled by `lrange` below, with Redis's negative-index semantics.
  A Redis set is a duplicate-free `List String` (`SADD` inserts if absent,
  `SREM` filters).  A Redis hash holding group metadata is an
  `Option GroupMeta`; `DEL` of a key yields `none` / `[]`.
* JSON serialization round-trips (`JSON.parse ∘ JSON.stringify = id`), so
  messages are stored as structures rather than strings.
* Redis operations are modelled as always succeeding; the `catch` branches
  of the handlers (which report a generic retry notice) are unreachable in
  the model.
* `socket.emit`, `socket.broadcast.emit`, `io.to(room).emit` and `io.emit`
  are recorded as a list of `Emit` values (target + payload), in program
  order.  Wall-clock timestamps generated by `new Date()` inside a handler
  are passed in as an explicit argument where a claim needs them, and
  elided from broadcast payloads otherwise.
* Each handler takes the per-connection state (`Session`, the fields the
  server stores on the socket object) and the shared server state
  (`ServerState`) and returns the updated pair plus the emitted events.
-/

namespace ChatApp

/-- A global-lobby chat message, as built in `handleMessage`
(`{username, message, timestamp}`). -/
structure GMessage where
  username : String
  message : String
  timestamp : String
deriving DecidableEq, Repr

/-- A group chat message, as built in `handleGroupMessage`
(`{groupId, username, message, timestamp}`). -/
structure GroupMsg where
  groupId : String
  username : String
  message : String
  timestamp : String
deriving DecidableEq, Repr

/-- Group metadata, the hash stored at `group:<id>:meta` by
`handleCreateGroup` (`{name, owner, createdAt}`). -/
structure GroupMeta where
  name : String
  owner : String
  createdAt : String
deriving DecidableEq, Repr

/-- Who an emitted event is delivered to. -/
inductive Target where
  /-- `socket.emit`: the requesting connection only. -/
  | self
  /-- `socket.broadcast.emit`: every live connection except the requester. -/
  | broadcastOthers
  /-- `io.to(groupId).emit`: every connection currently in that socket.io room. -/
  | room (groupId : String)
  /-- `io.emit`: every live connection, the requester included. -/
  | all
deriving DecidableEq, Repr

/-- The payloads of the events the server emits, one constructor per
`emit` call site in `server.js`. -/
inductive Payload where
  | usernameTaken (message : String)
  | usernameAccepted (username : String)
  | userJoined (username : String)
  | userLeft (username : String)
  | errorMsg (message : String)
  | groupCreated (groupId name owner createdAt : String)
  | groupJoined (groupId name : String) (messages : List GroupMsg)
  | groupMessage (m : GroupMsg)
  | groupHistoryCleared (groupId clearedBy : String)
  | groupDeleted (groupId deletedBy : String)
  | leftGroup (groupId status : String)
  | chatMessage (m : GMessage)
  | historicalMessages (messages : List GMessage)
  | paginatedMessages (messages : List GMessage) (hasMore : Bool) (offset : Nat)
  | globalHistoryCleared (clearedBy : String)
deriving DecidableEq, Repr

/-- One emitted event: a delivery target and a payload. -/
structure Emit where
  target : Target
  payload : Payload
deriving DecidableEq, Repr

/-- Per-connection state: the fields the server keeps on the socket object
(`socket.username`) together with the socket.io rooms the connection has
joined (`socket.join` / `socket.leave`). -/
structure Session where
  username : Option String
  rooms : List String
deriving DecidableEq, Repr

/-- The session a freshly connected socket starts with:
no username selected, no socket.io room joined. -/
def freshSession : Session := ⟨none, []⟩

/-- The shared server state: the in-memory `activeUsernames` set plus the
contents of the Redis store (group registry, per-group metadata, members and
messages, and the global `chat_messages` list).  Message lists are
newest-first, as produced by `LPUSH`. -/
structure ServerState where
  activeUsernames : List String
  groupsSet : List String
  groupMeta : String → Option GroupMeta
  groupMembers : String → List String
  groupMessages : String → List GroupMsg
  chatMessages : List GMessage

/-- Redis `LRANGE key start stop`: both indices may be negative (counted
from the end); the result is the inclusive slice, clamped to the list. -/
def lrange (l : List α) (start stop : Int) : List α :=
  let len : Int := l.length
  let s := if start < 0 then len + start else start
  let e := if stop < 0 then len + stop else stop
  let s₀ := max s 0
  (l.drop s₀.toNat).take (e - s₀ + 1).toNat

/-- Redis `SADD`: insert into a duplicate-free list if absent. -/
def saddStr (l : List String) (x : String) : List String :=
  if x ∈ l then l else x :: l

/-- Redis `SREM`: remove from the set. -/
def sremStr (l : List String) (x : String) : List String :=
  l.filter (· != x)

/-- Pointwise update of a keyed store (Redis write at one key). -/
def updAt (f : String → α) (k : String) (v : α) : String → α :=
  fun k' => if k' = k then v else f k'

/-- JavaScript `String.prototype.trim`: strip whitespace from both ends.
Defined over the character list (rather than through `String.trim`'s
byte-position loops) so that concrete instances reduce by `decide`. -/
def jsTrim (s : String) : String :=
  String.mk (((s.data.dropWhile Char.isWhitespace).reverse.dropWhile
    Char.isWhitespace).reverse)

/-- The character class `[a-zA-Z0-9_-]` shared by the group-id regex in
`isValidGroupId` (server.js) and the username pattern in `CONFIG.username`
(main.js). -/
def isAllowedChar (c : Char) : Bool :=
  ('a' ≤ c && c ≤ 'z') || ('A' ≤ c && c ≤ 'Z') || ('0' ≤ c && c ≤ '9') ||
    c == '_' || c == '-'

/-- `isValidGroupId` (server.js): the trimmed id must be non-empty and match
`/^[a-zA-Z0-9_-]{2,50}$/`. -/
def isValidGroupId (groupId : String) : Bool :=
  let trimmed := jsTrim groupId
  !(trimmed == "") && 2 ≤ trimmed.length && trimmed.length ≤ 50 &&
    trimmed.data.all isAllowedChar

/-- `handleUsernameSelection` (server.js): reject if the name is in
`activeUsernames`, otherwise add it to the set, store it on the socket, ack
the requester and broadcast `user_joined` to everyone else.  Note the
handler performs no lexical validation and does not check whether the
socket already has a username. -/
def handleUsernameSelection (sock : Session) (s : ServerState) (username : String) :
    Session × ServerState × List Emit :=
  if username ∈ s.activeUsernames then
    (sock, s, [⟨.self, .usernameTaken "Username is already taken. Please choose another."⟩])
  else
    ({ sock with username := some username },
     { s with activeUsernames := username :: s.activeUsernames },
     [⟨.self, .usernameAccepted username⟩, ⟨.broadcastOthers, .userJoined username⟩])

/-- `handleDisconnection` (server.js): if the socket had a username, delete
it from `activeUsernames` and broadcast `user_left`; otherwise do nothing. -/
def handleDisconnection (sock : Session) (s : ServerState) :
    ServerState × List Emit :=
  match sock.username with
  | some u =>
      ({ s with activeUsernames := sremStr s.activeUsernames u },
       [⟨.broadcastOthers, .userLeft u⟩])
  | none => (s, [])

/-- `handleCreateGroup` (server.js).  `now` is the `createdAt` ISO string the
handler reads from the clock.  `nameRaw = none` models a request without a
`name` field (JS `undefined`). -/
def handleCreateGroup (sock : Session) (s : ServerState) (groupIdRaw : String)
    (nameRaw : Option String) (now : String) : Session × ServerState × List Emit :=
  match sock.username with
  | none =>
      (sock, s, [⟨.self, .errorMsg "Please select a username before creating groups."⟩])
  | some uname =>
    let groupId := jsTrim groupIdRaw
    let groupName :=
      jsTrim (match nameRaw with
              | none => groupId
              | some n => if n == "" then groupId else n)
    if !isValidGroupId groupId then
      (sock, s, [⟨.self, .errorMsg "Invalid group ID. Use 2-50 chars: letters, numbers, _ or -."⟩])
    else if groupId ∈ s.groupsSet then
      (sock, s, [⟨.self, .errorMsg "Group already exists."⟩])
    else
      ({ sock with rooms := saddStr sock.rooms groupId },
       { s with
           groupsSet := saddStr s.groupsSet groupId,
           groupMeta := updAt s.groupMeta groupId (some ⟨groupName, uname, now⟩),
           groupMembers :=
             updAt s.groupMembers groupId (saddStr (s.groupMembers groupId) uname) },
       [⟨.self, .groupCreated groupId groupName uname now⟩])

/-- `handleJoinGroup` (server.js): add the user to the member set, join the
socket.io room, and return the full message list (`LRANGE 0 -1` of the
newest-first list) together with the group's display name. -/
def handleJoinGroup (sock : Session) (s : ServerState) (groupIdRaw : String) :
    Session × ServerState × List Emit :=
  match sock.username with
  | none =>
      (sock, s, [⟨.self, .errorMsg "Please select a username before joining groups."⟩])
  | some uname =>
    let groupId := jsTrim groupIdRaw
    if !isValidGroupId groupId then
      (sock, s, [⟨.self, .errorMsg "Invalid group ID."⟩])
    else if groupId ∉ s.groupsSet then
      (sock, s, [⟨.self, .errorMsg "Group does not exist."⟩])
    else
      let messages := lrange (s.groupMessages groupId) 0 (-1)
      let name :=
        match s.groupMeta groupId with
        | some m => if m.name == "" then groupId else m.name
        | none => groupId
      ({ sock with rooms := saddStr sock.rooms groupId },
       { s with groupMembers :=
           updAt s.groupMembers groupId (saddStr (s.groupMembers groupId) uname) },
       [⟨.self, .groupJoined groupId name messages⟩])

/-- `handleGroupMessage` (server.js).  Note the silent `return` when the
trimmed id is invalid or the trimmed body is empty: no event is emitted. -/
def handleGroupMessage (sock : Session) (s : ServerState)
    (groupIdRaw messageRaw timestamp : String) : Session × ServerState × List Emit :=
  match sock.username with
  | none =>
      (sock, s, [⟨.self, .errorMsg "Please select a username before sending messages."⟩])
  | some uname =>
    let groupId := jsTrim groupIdRaw
    let messageText := jsTrim messageRaw
    if !isValidGroupId groupId || messageText == "" then
      (sock, s, [])
    else if uname ∉ s.groupMembers groupId then
      (sock, s, [⟨.self, .errorMsg "You are not a member of this group."⟩])
    else
      let messageData : GroupMsg := ⟨groupId, uname, messageText, timestamp⟩
      (sock,
       { s with groupMessages :=
           updAt s.groupMessages groupId (messageData :: s.groupMessages groupId) },
       [⟨.room groupId, .groupMessage messageData⟩])

/-- `handleClearGroupHistory` (server.js): any member may clear; deletes the
message list only.  Silent `return` on an invalid id. -/
def handleClearGroupHistory (sock : Session) (s : ServerState) (groupIdRaw : String) :
    Session × ServerState × List Emit :=
  match sock.username with
  | none =>
      (sock, s, [⟨.self, .errorMsg "Please select a username before clearing group history."⟩])
  | some uname =>
    let groupId := jsTrim groupIdRaw
    if !isValidGroupId groupId then
      (sock, s, [])
    else if uname ∉ s.groupMembers groupId then
      (sock, s, [⟨.self, .errorMsg "You are not a member of this group."⟩])
    else
      (sock,
       { s with groupMessages := updAt s.groupMessages groupId [] },
       [⟨.room groupId, .groupHistoryCleared groupId uname⟩])

/-- `handleDeleteGroup` (server.js): requires the group to exist and
`meta.owner` to equal the requester's username (a missing meta hash also
fails the check); on success it broadcasts `group_deleted` to the room
*before* deleting messages, members, meta and the registry entry, then
kicks every socket out of the socket.io room (modelled here on the
requesting session's `rooms`).  Silent `return` on an invalid id. -/
def handleDeleteGroup (sock : Session) (s : ServerState) (groupIdRaw : String) :
    Session × ServerState × List Emit :=
  match sock.username with
  | none =>
      (sock, s, [⟨.self, .errorMsg "Please select a username before deleting groups."⟩])
  | some uname =>
    let groupId := jsTrim groupIdRaw
    if !isValidGroupId groupId then
      (sock, s, [])
    else if groupId ∉ s.groupsSet then
      (sock, s, [⟨.self, .errorMsg "Group does not exist."⟩])
    else if (s.groupMeta groupId).all (fun m => m.owner != uname) then
      (sock, s, [⟨.self, .errorMsg "Only the group owner can delete this group."⟩])
    else
      ({ sock with rooms := sock.rooms.filter (· != groupId) },
       { s with
           groupsSet := sremStr s.groupsSet groupId,
           groupMeta := updAt s.groupMeta groupId none,
           groupMembers := updAt s.groupMembers groupId [],
           groupMessages := updAt s.groupMessages groupId [] },
       [⟨.room groupId, .groupDeleted groupId uname⟩])

/-- `handleLeaveGroup` (server.js): reports `not_member` as a normal
outcome; otherwise removes membership and leaves the socket.io room.
Silent `return` on an invalid id. -/
def handleLeaveGroup (sock : Session) (s : ServerState) (groupIdRaw : String) :
    Session × ServerState × List Emit :=
  match sock.username with
  | none =>
      (sock, s, [⟨.self, .errorMsg "Please select a username before leaving groups."⟩])
  | some uname =>
    let groupId := jsTrim groupIdRaw
    if !isValidGroupId groupId then
      (sock, s, [])
    else if uname ∉ s.groupMembers groupId then
      (sock, s, [⟨.self, .leftGroup groupId "not_member"⟩])
    else
      ({ sock with rooms := sock.rooms.filter (· != groupId) },
       { s with groupMembers :=
           updAt s.groupMembers groupId (sremStr (s.groupMembers groupId) uname) },
       [⟨.self, .leftGroup groupId "ok"⟩])

/-- `handleMessage` (server.js): global-lobby send.  The body is stored as
sent (no trimming, no emptiness check) and `LPUSH`ed to `chat_messages`,
then the message is emitted to every connection via `io.emit`. -/
def handleMessage (sock : Session) (s : ServerState) (message timestamp : String) :
    Session × ServerState × List Emit :=
  match sock.username with
  | none =>
      (sock, s, [⟨.self, .errorMsg "Please select a username before sending messages."⟩])
  | some uname =>
    let messageData : GMessage := ⟨uname, message, timestamp⟩
    (sock,
     { s with chatMessages := messageData :: s.chatMessages },
     [⟨.all, .chatMessage messageData⟩])

/-- `loadHistoricalMessages` (server.js): emit the full stored list
(`LRANGE chat_messages 0 -1`, hence newest-first) to the requester. -/
def loadHistoricalMessages (sock : Session) (s : ServerState) :
    Session × ServerState × List Emit :=
  (sock, s, [⟨.self, .historicalMessages (lrange s.chatMessages 0 (-1))⟩])

/-- `loadPaginatedMessages` (server.js): emit
`LRANGE chat_messages offset (offset+limit-1)` together with
`hasMore = (count == limit)` and the continuation offset
`offset + count`. -/
def loadPaginatedMessages (sock : Session) (s : ServerState) (offset limit : Nat) :
    Session × ServerState × List Emit :=
  let messages := lrange s.chatMessages offset ((offset : Int) + (limit : Int) - 1)
  (sock, s,
   [⟨.self, .paginatedMessages messages (messages.length == limit)
      (offset + messages.length)⟩])

/-- `clearChatHistory` (server.js): identified users may clear the global
log; notifies everyone. -/
def clearChatHistory (sock : Session) (s : ServerState) :
    Session × ServerState × List Emit :=
  match sock.username with
  | none =>
      (sock, s, [⟨.self, .errorMsg "Please select a username before clearing chat history."⟩])
  | some uname =>
    (sock, { s with chatMessages := [] },
     [⟨.all, .globalHistoryCleared uname⟩])

/-- The request vocabulary of the connection handler: one constructor per
`socket.on` registration in the `io.on('connection')` block (`disconnect`
is modelled separately, as a `Step`).  `createGroup` carries the clock
reading used for `createdAt`. -/
inductive Request where
  | selectUsername (username : String)
  | sendMessage (message timestamp : String)
  | loadMore (offset limit : Nat)
  | clearHistory
  | createGroup (groupId : String) (name : Option String) (now : String)
  | joinGroup (groupId : String)
  | leaveGroup (groupId : String)
  | groupMessage (groupId message timestamp : String)
  | clearGroupHistory (groupId : String)
  | deleteGroup (groupId : String)
  | requestGlobalHistory
deriving DecidableEq, Repr

/-- The per-connection protocol dispatcher: routes each request to its
handler, exactly as the `socket.on` registrations do. -/
def dispatch (sock : Session) (s : ServerState) : Request → Session × ServerState × List Emit
  | .selectUsername username => handleUsernameSelection sock s username
  | .sendMessage message timestamp => handleMessage sock s message timestamp
  | .loadMore offset limit => loadPaginatedMessages sock s offset limit
  | .clearHistory => clearChatHistory sock s
  | .createGroup groupId name now => handleCreateGroup sock s groupId name now
  | .joinGroup groupId => handleJoinGroup sock s groupId
  | .leaveGroup groupId => handleLeaveGroup sock s groupId
  | .groupMessage groupId message timestamp =>
      handleGroupMessage sock s groupId message timestamp
  | .clearGroupHistory groupId => handleClearGroupHistory sock s groupId
  | .deleteGroup groupId => handleDeleteGroup sock s groupId
  | .requestGlobalHistory => loadHistoricalMessages sock s

/-- Whether an event emitted while handling a request of session `sock` is
delivered to `sock` itself: unicasts and `io.emit` reach it,
`socket.broadcast` excludes it, and a room broadcast reaches it exactly
when the connection is in that socket.io room at dispatch time. -/
def receivesSelf (sock : Session) (e : Emit) : Bool :=
  match e.target with
  | .self => true
  | .all => true
  | .broadcastOthers => false
  | .room g => sock.rooms.contains g

/-- The requests `server.js` drops without emitting anything: an identified
session's room-scoped request whose trimmed id fails `isValidGroupId`, or a
group message whose trimmed body is empty. -/
def silentDrop (sock : Session) (req : Request) : Bool :=
  match sock.username with
  | none => false
  | some _ =>
    match req with
    | .groupMessage gid msg _ => !isValidGroupId (jsTrim gid) || jsTrim msg == ""
    | .clearGroupHistory gid => !isValidGroupId (jsTrim gid)
    | .deleteGroup gid => !isValidGroupId (jsTrim gid)
    | .leaveGroup gid => !isValidGroupId (jsTrim gid)
    | _ => false

/-- The successful requests whose only response is a room broadcast that
misses the requester: the handler reaches its `io.to(groupId).emit` (the
operation succeeds) while the requester's connection is not in that
socket.io room at dispatch time.  This happens for `group_message`,
`clear_group_history` and `delete_group` from a session whose channel
association is gone although its authorization is intact — a member who
reconnected under the same name without re-joining the channel, or an
owner who left the room (membership is keyed by identity and survives in
Redis; the socket.io room does not). -/
def missedBroadcast (sock : Session) (s : ServerState) (req : Request) : Bool :=
  match sock.username with
  | none => false
  | some u =>
    match req with
    | .groupMessage gid msg _ =>
        isValidGroupId (jsTrim gid) && !(jsTrim msg == "") &&
          decide (u ∈ s.groupMembers (jsTrim gid)) &&
          !sock.rooms.contains (jsTrim gid)
    | .clearGroupHistory gid =>
        isValidGroupId (jsTrim gid) &&
          decide (u ∈ s.groupMembers (jsTrim gid)) &&
          !sock.rooms.contains (jsTrim gid)
    | .deleteGroup gid =>
        isValidGroupId (jsTrim gid) && decide (jsTrim gid ∈ s.groupsSet) &&
          !(s.groupMeta (jsTrim gid)).all (fun m => m.owner != u) &&
          !sock.rooms.contains (jsTrim gid)
    | _ => false

/-- The whole system: the live sessions (keyed by socket id) and the shared
server state. -/
structure Sys where
  sessions : Nat → Option Session
  server : ServerState

/-- Update one socket id's slot. -/
def updSessions (f : Nat → Option Session) (sid : Nat) (v : Option Session) :
    Nat → Option Session :=
  fun k => if k = sid then v else f k

/-- What happens to the system in one step. -/
inductive Action where
  | connect (sid : Nat)
  | request (sid : Nat) (req : Request)
  | disconnect (sid : Nat)
deriving DecidableEq, Repr

/-- One step of the system: a new connection (which only reads state — the
`loadHistoricalMessages` it triggers emits but mutates nothing), a request
dispatched on a live connection, or a disconnection. -/
inductive Step : Sys → Action → Sys → Prop where
  | connect (sys : Sys) (sid : Nat) (h : sys.sessions sid = none) :
      Step sys (.connect sid)
        ⟨updSessions sys.sessions sid (some freshSession), sys.server⟩
  | request (sys : Sys) (sid : Nat) (sess : Session) (req : Request)
      (h : sys.sessions sid = some sess) :
      Step sys (.request sid req)
        ⟨updSessions sys.sessions sid (some (dispatch sess sys.server req).1),
         (dispatch sess sys.server req).2.1⟩
  | disconnect (sys : Sys) (sid : Nat) (sess : Session)
      (h : sys.sessions sid = some sess) :
      Step sys (.disconnect sid)
        ⟨updSessions sys.sessions sid none,
         (handleDisconnection sess sys.server).1⟩

/-- The reachable systems: the process starts with no live session and an
empty `activeUsernames` set (the durable store contents survive restarts
and are arbitrary), and evolves by `Step`. -/
inductive Reachable : Sys → Prop where
  | init (store : ServerState) (h : store.activeUsernames = []) :
      Reachable ⟨fun _ => none, store⟩
  | step (sys : Sys) (a : Action) (sys' : Sys) :
      Reachable sys → Step sys a sys' → Reachable sys'

/-- Every identity held by a live session is registered in
`activeUsernames`. -/
def Inv (sys : Sys) : Prop :=
  ∀ sid sess u, sys.sessions sid = some sess → sess.username = some u →
    u ∈ sys.server.activeUsernames

/-- No two distinct live sessions hold the same identity. -/
def Uniq (sys : Sys) : Prop :=
  ∀ sid₁ sid₂ sess₁ sess₂ u, sid₁ ≠ sid₂ →
    sys.sessions sid₁ = some sess₁ → sys.sessions sid₂ = some sess₂ →
    sess₁.username = some u → sess₂.username ≠ some u

/-- How a dispatched request can touch the identity bookkeeping: either it
leaves both the session's username and `activeUsernames` exactly as they
were, or it is a `select_username` for a name that was free, which binds
that name and prepends it to the set. -/
theorem dispatch_bindings (sock : Session) (s : ServerState) (req : Request) :
    ((dispatch sock s req).1.username = sock.username ∧
      (dispatch sock s req).2.1.activeUsernames = s.activeUsernames) ∨
    (∃ v, req = .selectUsername v ∧ v ∉ s.activeUsernames ∧
      (dispatch sock s req).1.username = some v ∧
      (dispatch sock s req).2.1.activeUsernames = v :: s.activeUsernames) := by
  cases req with
  | selectUsername v =>
      by_cases hv : v ∈ s.activeUsernames
      · left; simp [dispatch, handleUsernameSelection, hv]
      · right
        exact ⟨v, rfl, hv, by simp [dispatch, handleUsernameSelection, hv],
          by simp [dispatch, handleUsernameSelection, hv]⟩
  | sendMessage m t =>
      left; cases h : sock.username <;> simp [dispatch, handleMessage, h]
  | loadMore o l => left; simp [dispatch, loadPaginatedMessages]
  | clearHistory =>
      left; cases h : sock.username <;> simp [dispatch, clearChatHistory, h]
  | createGroup g n now =>
      left; cases h : sock.username <;>
        simp only [dispatch, handleCreateGroup, h] <;> (repeat' split) <;> simp [h]
  | joinGroup g =>
      left; cases h : sock.username <;>
        simp only [dispatch, handleJoinGroup, h] <;> (repeat' split) <;> simp [h]
  | leaveGroup g =>
      left; cases h : sock.username <;>
        simp only [dispatch, handleLeaveGroup, h] <;> (repeat' split) <;> simp [h]
  | groupMessage g m t =>
      left; cases h : sock.username <;>
        simp only [dispatch, handleGroupMessage, h] <;> (repeat' split) <;> simp [h]
  | clearGroupHistory g =>
      left; cases h : sock.username <;>
        simp only [dispatch, handleClearGroupHistory, h] <;> (repeat' split) <;> simp [h]
  | deleteGroup g =>
      left; cases h : sock.username <;>
        simp only [dispatch, handleDeleteGroup, h] <;> (repeat' split) <;> simp [h]
  | requestGlobalHistory => left; simp [dispatch, loadHistoricalMessages]

/-- `Inv` and `Uniq` hold in every reachable system. -/
theorem reachable_inv (sys : Sys) (h : Reachable sys) : Inv sys ∧ Uniq sys := by
  induction h with
  | init store hstore =>
      constructor
      · intro sid sess u hsess; simp at hsess
      · intro sid₁ sid₂ sess₁ sess₂ u _ hsess₁; simp at hsess₁
  | step sys a sys' _ hstep ih =>
      obtain ⟨hinv, huniq⟩ := ih
      cases hstep with
      | connect sid hnone =>
          constructor
          · intro sid' sess u hsess hu
            simp only [updSessions] at hsess
            split at hsess
            · cases hsess; simp [freshSession] at hu
            · exact hinv sid' sess u hsess hu
          · intro sid₁ sid₂ sess₁ sess₂ u hne hs₁ hs₂ hu₁
            simp only [updSessions] at hs₁ hs₂
            split at hs₁
            · cases hs₁; simp [freshSession] at hu₁
            · split at hs₂
              · cases hs₂; simp [freshSession]
              · exact huniq sid₁ sid₂ sess₁ sess₂ u hne hs₁ hs₂ hu₁
      | request sid sess req hsess =>
          rcases dispatch_bindings sess sys.server req with
            ⟨hname, hact⟩ | ⟨v, _, hfree, hname, hact⟩
          · constructor
            · intro sid' sess' u hs' hu
              show u ∈ (dispatch sess sys.server req).2.1.activeUsernames
              rw [hact]
              simp only [updSessions] at hs'
              split at hs'
              · cases hs'; exact hinv sid sess u hsess (hname ▸ hu)
              · exact hinv sid' sess' u hs' hu
            · intro sid₁ sid₂ sess₁ sess₂ u hne hs₁ hs₂ hu₁
              simp only [updSessions] at hs₁ hs₂
              split at hs₁ <;> split at hs₂
              · rename_i h₁ h₂; exact absurd (h₁.trans h₂.symm) hne
              · cases hs₁
                exact huniq sid sid₂ sess sess₂ u (by rename_i h₁ h₂; omega) hsess hs₂
                  (hname ▸ hu₁)
              · cases hs₂
                intro hu₂
                exact huniq sid₁ sid sess₁ sess u (by rename_i h₁ h₂; omega) hs₁ hsess hu₁
                  (hname ▸ hu₂)
              · exact huniq sid₁ sid₂ sess₁ sess₂ u hne hs₁ hs₂ hu₁
          · constructor
            · intro sid' sess' u hs' hu
              show u ∈ (dispatch sess sys.server req).2.1.activeUsernames
              rw [hact]
              simp only [updSessions] at hs'
              split at hs'
              · cases hs'
                rw [hname] at hu; cases hu
                exact List.mem_cons_self _ _
              · exact List.mem_cons_of_mem _ (hinv sid' sess' u hs' hu)
            · intro sid₁ sid₂ sess₁ sess₂ u hne hs₁ hs₂ hu₁
              simp only [updSessions] at hs₁ hs₂
              split at hs₁ <;> split at hs₂
              · rename_i h₁ h₂; exact absurd (h₁.trans h₂.symm) hne
              · cases hs₁
                rw [hname] at hu₁; cases hu₁
                intro hu₂
                exact hfree (hinv sid₂ sess₂ v hs₂ hu₂)
              · cases hs₂
                rw [hname]
                intro hu₂; cases hu₂
                exact hfree (hinv sid₁ sess₁ v hs₁ hu₁)
              · exact huniq sid₁ sid₂ sess₁ sess₂ u hne hs₁ hs₂ hu₁
      | disconnect sid sess hsess =>
          constructor
          · intro sid' sess' u hs' hu
            simp only [updSessions] at hs'
            split at hs'
            · cases hs'
            · rename_i hdiff
              have hmem := hinv sid' sess' u hs' hu
              show u ∈ (handleDisconnection sess sys.server).1.activeUsernames
              cases hname : sess.username with
              | none => simpa [handleDisconnection, hname] using hmem
              | some u₀ =>
                  have hneu : u ≠ u₀ := fun huu =>
                    huniq sid' sid sess' sess u hdiff hs' hsess hu (huu ▸ hname)
                  simp [handleDisconnection, hname, sremStr, List.mem_filter, hmem,
                    bne_iff_ne, hneu]
          · intro sid₁ sid₂ sess₁ sess₂ u hne hs₁ hs₂ hu₁
            simp only [updSessions] at hs₁ hs₂
            split at hs₁
            · cases hs₁
            · split at hs₂
              · cases hs₂
              · exact huniq sid₁ sid₂ sess₁ sess₂ u hne hs₁ hs₂ hu₁

/-- `validateUsername` (main.js): returns the error message for a lexically
invalid username, `none` for a valid one. -/
def validateUsername (username : String) : Option String :=
  let trimmed := jsTrim username
  if trimmed == "" then some "Username cannot be empty"
  else if trimmed.length < 2 then some "Username must be at least 2 characters long"
  else if trimmed.length > 20 then some "Username must be less than 20 characters"
  else if !(trimmed.data.all isAllowedChar) then
    some "Username can only contain letters, numbers, underscores, and hyphens"
  else none

/-- What the client's username form does with a submission. -/
inductive ClientAction where
  | showUsernameError (message : String)
  | emitSelectUsername (username : String)
deriving DecidableEq, Repr

/-- `handleUsernameSubmit` (main.js): validate the typed name; on a
validation error show it and stop (no request is sent to the server),
otherwise emit `select_username` with the trimmed name. -/
def handleUsernameSubmit (input : String) : ClientAction :=
  match validateUsername input with
  | some e => .showUsernameError e
  | none => .emitSelectUsername (jsTrim input)

theorem lrange_full (l : List α) : lrange l 0 (-1) = l := by
  simp only [lrange]
  norm_num

theorem lrange_nat (l : List α) (ofs limit : Nat) (h : 0 < limit) :
    lrange l ofs ((ofs : Int) + limit - 1) = (l.drop ofs).take limit := by
  simp only [lrange]
  have h1 : ¬((ofs : Int) < 0) := by omega
  have h2 : ¬((ofs : Int) + limit - 1 < 0) := by omega
  rw [if_neg h1, if_neg h2]
  have hmax : max (ofs : Int) 0 = (ofs : Int) := max_eq_left (by omega)
  rw [hmax]
  have ht : ((ofs : Int) + limit - 1 - ofs + 1).toNat = limit := by omega
  rw [ht, Int.toNat_ofNat]

/-- The client-side pagination loop on the global log: request a page via
the `readRange` semantics of `loadPaginatedMessages` (the page is
`LRANGE offset (offset+limit-1)`), and while the response reports
`hasMore` (page length = limit) continue from the returned continuation
offset `offset + count`, concatenating the pages; the second component is
the final page's `hasMore` flag. -/
def paginateFrom (log : List GMessage) (limit offset : Nat) :
    List GMessage × Bool :=
  if h : 0 < limit ∧ (lrange log offset ((offset : Int) + limit - 1)).length = limit then
    (lrange log offset ((offset : Int) + limit - 1) ++
       (paginateFrom log limit
         (offset + (lrange log offset ((offset : Int) + limit - 1)).length)).1,
     (paginateFrom log limit
       (offset + (lrange log offset ((offset : Int) + limit - 1)).length)).2)
  else
    (lrange log offset ((offset : Int) + limit - 1),
     (lrange log offset ((offset : Int) + limit - 1)).length == limit)
termination_by log.length - offset
decreasing_by
  all_goals {
    rcases h with ⟨hl, hm⟩
    rw [lrange_nat log offset limit hl] at hm ⊢
    rw [List.length_take, List.length_drop] at hm ⊢
    omega }

theorem paginateFrom_drop (log : List GMessage) (limit : Nat) (hl : 0 < limit) :
    ∀ n offset, log.length - offset ≤ n →
      paginateFrom log limit offset = (log.drop offset, false) := by
  intro n
  induction n with
  | zero =>
      intro offset hofs
      have hnil : log.drop offset = [] := List.drop_eq_nil_of_le (by omega)
      have hlen : (lrange log offset ((offset : Int) + limit - 1)).length = 0 := by
        rw [lrange_nat log offset limit hl, hnil]
        simp
      have hneg : ¬(0 < limit ∧
          (lrange log offset ((offset : Int) + limit - 1)).length = limit) := by
        rintro ⟨_, hc⟩
        rw [hlen] at hc
        omega
      rw [paginateFrom, dif_neg hneg, lrange_nat log offset limit hl, hnil]
      simp
      omega
  | succ n ih =>
      intro offset hofs
      by_cases hc : (lrange log offset ((offset : Int) + limit - 1)).length = limit
      · have hrest : limit ≤ log.length - offset := by
          have := hc
          rw [lrange_nat log offset limit hl, List.length_take, List.length_drop] at this
          omega
        rw [paginateFrom, dif_pos ⟨hl, hc⟩, hc, ih (offset + limit) (by omega),
          lrange_nat log offset limit hl]
        have hdd : log.drop (offset + limit) = (log.drop offset).drop limit := by
          rw [List.drop_drop, Nat.add_comm]
        rw [hdd, List.take_append_drop]
      · rw [paginateFrom, dif_neg (fun hcon => hc hcon.2),
          lrange_nat log offset limit hl]
        rw [lrange_nat log offset limit hl, List.length_take, List.length_drop] at hc
        have htake : (log.drop offset).take limit = log.drop offset :=
          List.take_of_length_le (by rw [List.length_drop]; omega)
        rw [htake]
        simp [List.length_drop]
        omega

/-! ## Concrete states used by witnesses and counterexamples -/

/-- A server state with nothing stored. -/
def emptyStore : ServerState :=
  ⟨[], [], fun _ => none, fun _ => [], fun _ => [], []⟩

/-- A server state holding one group `room1` owned by `alice`, whose sole
member is `alice`. -/
def roomStore : ServerState :=
  ⟨["alice", "bob"], ["room1"],
   fun g => if g = "room1" then some ⟨"Room One", "alice", "t0"⟩ else none,
   fun g => if g = "room1" then ["alice"] else [],
   fun _ => [], []⟩

/-- A server state where `room1`'s owner `alice` is no longer in the member
set (she has left the room), `bob` being the only member. -/
def ownerGoneStore : ServerState :=
  ⟨["alice", "bob"], ["room1"],
   fun g => if g = "room1" then some ⟨"Room One", "alice", "t0"⟩ else none,
   fun g => if g = "room1" then ["bob"] else [],
   fun _ => [], []⟩

/-- A server state whose `activeUsernames` set is `{"ab"}`. -/
def abStore : ServerState :=
  ⟨["ab"], [], fun _ => none, fun _ => [], fun _ => [], []⟩

/-! ## C1 -/

/-- C1: for every existing room and identified requester, deletion succeeds
only when the requester is the stored owner; a non-owner request fails with
the owner-only error and leaves the whole server state (registry entry,
metadata, membership set and message log included) unchanged. -/
theorem delete_requires_owner (sock : Session) (s : ServerState)
    (groupIdRaw u : String) (hu : sock.username = some u)
    (hvalid : isValidGroupId (jsTrim groupIdRaw) = true)
    (hexists : jsTrim groupIdRaw ∈ s.groupsSet) :
    ((∀ m, s.groupMeta (jsTrim groupIdRaw) = some m → m.owner ≠ u) →
      handleDeleteGroup sock s groupIdRaw =
        (sock, s, [⟨.self, .errorMsg "Only the group owner can delete this group."⟩]))
    ∧ (jsTrim groupIdRaw ∉ (handleDeleteGroup sock s groupIdRaw).2.1.groupsSet →
      ∃ m, s.groupMeta (jsTrim groupIdRaw) = some m ∧ m.owner = u) := by
  constructor
  · intro hnotowner
    have hall : (s.groupMeta (jsTrim groupIdRaw)).all (fun m => m.owner != u) = true := by
      cases hm : s.groupMeta (jsTrim groupIdRaw) with
      | none => rfl
      | some m => simpa [bne_iff_ne] using hnotowner m hm
    simp [handleDeleteGroup, hu, hvalid, hexists, hall]
  · intro hndel
    by_contra hno
    push_neg at hno
    have hall : (s.groupMeta (jsTrim groupIdRaw)).all (fun m => m.owner != u) = true := by
      cases hm : s.groupMeta (jsTrim groupIdRaw) with
      | none => rfl
      | some m => simpa [bne_iff_ne] using hno m hm
    apply hndel
    simp [handleDeleteGroup, hu, hvalid, hexists, hall]

/-- Witness for C1 at a concrete input: `bob` (identified, not the owner)
asks to delete `room1`, which `alice` owns; the request fails with the
owner-only error and the state is returned untouched. -/
theorem delete_requires_owner_witness :
    handleDeleteGroup ⟨some "bob", []⟩ roomStore "room1" =
      (⟨some "bob", []⟩, roomStore,
       [⟨.self, .errorMsg "Only the group owner can delete this group."⟩]) :=
  (delete_requires_owner ⟨some "bob", []⟩ roomStore "room1" "bob" rfl (by decide)
    (by decide)).1
    (by intro m hm; simp [roomStore] at hm; simp [← hm])

/-! ## C2 -/

/-- C2 counterexample: append `"first"` then `"second"` to the global log
with `handleMessage`; the full-range read then delivers `"second"` — the
most recently appended message — as the *first* element, so the sequence is
not ordered oldest to newest. -/
theorem full_read_oldest_first_counterexample :
    (loadHistoricalMessages ⟨some "alice", []⟩
        (handleMessage ⟨some "alice", []⟩
          (handleMessage ⟨some "alice", []⟩ emptyStore "first" "t1").2.1
          "second" "t2").2.1).2.2 =
      [⟨.self, .historicalMessages
        [⟨"alice", "second", "t2"⟩, ⟨"alice", "first", "t1"⟩]⟩]
    ∧ (⟨"alice", "second", "t2"⟩ : GMessage) ≠ ⟨"alice", "first", "t1"⟩ := by
  constructor
  · rfl
  · decide

/-- C2 (amended): the full-range read returns the complete message log in
stored order, which is newest first: after a successful global send the
full read delivers the new message as the head followed by the entire
previous log, and a room join delivers the room's complete stored
(newest-first) log. -/
theorem full_read_newest_first (sock : Session) (s : ServerState)
    (u body ts gRaw : String) (hu : sock.username = some u)
    (hvalid : isValidGroupId (jsTrim gRaw) = true)
    (hexists : jsTrim gRaw ∈ s.groupsSet) :
    (loadHistoricalMessages (handleMessage sock s body ts).1
        (handleMessage sock s body ts).2.1).2.2 =
      [⟨.self, .historicalMessages (⟨u, body, ts⟩ :: s.chatMessages)⟩]
    ∧ ∃ name, (handleJoinGroup sock s gRaw).2.2 =
        [⟨.self, .groupJoined (jsTrim gRaw) name (s.groupMessages (jsTrim gRaw))⟩] := by
  constructor
  · simp [handleMessage, hu, loadHistoricalMessages, lrange_full]
  · refine ⟨match s.groupMeta (jsTrim gRaw) with
      | some m => if m.name == "" then jsTrim gRaw else m.name
      | none => jsTrim gRaw, ?_⟩
    simp [handleJoinGroup, hu, hvalid, hexists, lrange_full]

/-- Witness for C2 at a concrete input: `alice` sends `"hi"` into the
empty global log of `roomStore` and joins `room1`. -/
theorem full_read_newest_first_witness :
    (loadHistoricalMessages
        (handleMessage ⟨some "alice", []⟩ roomStore "hi" "t1").1
        (handleMessage ⟨some "alice", []⟩ roomStore "hi" "t1").2.1).2.2 =
      [⟨.self, .historicalMessages [⟨"alice", "hi", "t1"⟩]⟩]
    ∧ ∃ name, (handleJoinGroup ⟨some "alice", []⟩ roomStore "room1").2.2 =
        [⟨.self, .groupJoined "room1" name []⟩] :=
  full_read_newest_first ⟨some "alice", []⟩ roomStore "alice" "hi" "t1" "room1" rfl
    (by decide) (by decide)

/-! ## C9 -/

/-- C9 counterexample: `bob` is identified and not a member of `room1`, yet
his room-message request whose body trims to empty is dropped silently —
no not-a-member error event is emitted (the log is still unchanged). -/
theorem nonmember_message_counterexample :
    ¬("bob" ∈ roomStore.groupMembers "room1")
    ∧ handleGroupMessage ⟨some "bob", []⟩ roomStore "room1" "   " "t3" =
        (⟨some "bob", []⟩, roomStore, []) := by
  refine ⟨by decide, ?_⟩
  rfl

/-- C9 (amended): a room-message request from an identified non-member
whose body is non-empty after trimming fails with the not-a-member error;
in all cases (an empty body included) the server state — in particular the
room's message log — is unchanged and nothing is broadcast to the room
(every emitted event is a unicast to the requester). -/
theorem nonmember_message_rejected (sock : Session) (s : ServerState)
    (gRaw body ts u : String) (hu : sock.username = some u)
    (hvalid : isValidGroupId (jsTrim gRaw) = true)
    (hmem : u ∉ s.groupMembers (jsTrim gRaw)) :
    (jsTrim body ≠ "" →
      handleGroupMessage sock s gRaw body ts =
        (sock, s, [⟨.self, .errorMsg "You are not a member of this group."⟩]))
    ∧ (handleGroupMessage sock s gRaw body ts).2.1 = s
    ∧ ∀ e ∈ (handleGroupMessage sock s gRaw body ts).2.2, e.target = Target.self := by
  by_cases hb : jsTrim body = ""
  · refine ⟨fun hne => absurd hb hne, ?_, ?_⟩
    · simp [handleGroupMessage, hu, hb]
    · simp [handleGroupMessage, hu, hb]
  · refine ⟨fun _ => by simp [handleGroupMessage, hu, hvalid, hb, hmem], ?_, ?_⟩
    · simp [handleGroupMessage, hu, hvalid, hb, hmem]
    · simp [handleGroupMessage, hu, hvalid, hb, hmem]

/-- Witness for C9 at a concrete input: non-member `bob` sends `"hi"` to
`room1`. -/
theorem nonmember_message_rejected_witness :
    (handleGroupMessage ⟨some "bob", []⟩ roomStore "room1" "hi" "t3" =
      (⟨some "bob", []⟩, roomStore,
       [⟨.self, .errorMsg "You are not a member of this group."⟩]))
    ∧ (handleGroupMessage ⟨some "bob", []⟩ roomStore "room1" "hi" "t3").2.1 = roomStore
    ∧ ∀ e ∈ (handleGroupMessage ⟨some "bob", []⟩ roomStore "room1" "hi" "t3").2.2,
        e.target = Target.self :=
  have h := nonmember_message_rejected ⟨some "bob", []⟩ roomStore "room1" "hi" "t3" "bob"
    rfl (by decide) (by decide)
  ⟨h.1 (by decide), h.2.1, h.2.2⟩

/-! ## C10 -/

/-- C10: deletion by the stored owner succeeds even when the owner is not
in the room's membership set: with the room present and the requester equal
to `meta.owner`, `handleDeleteGroup` broadcasts `group_deleted` and removes
the registry entry, metadata, membership set and message log — membership
is never consulted. -/
theorem owner_delete_without_membership (sock : Session) (s : ServerState)
    (gRaw u : String) (m : GroupMeta) (hu : sock.username = some u)
    (hvalid : isValidGroupId (jsTrim gRaw) = true)
    (hexists : jsTrim gRaw ∈ s.groupsSet)
    (hmeta : s.groupMeta (jsTrim gRaw) = some m) (howner : m.owner = u)
    (hnotmem : u ∉ s.groupMembers (jsTrim gRaw)) :
    (handleDeleteGroup sock s gRaw).2.2 =
      [⟨.room (jsTrim gRaw), .groupDeleted (jsTrim gRaw) u⟩]
    ∧ jsTrim gRaw ∉ (handleDeleteGroup sock s gRaw).2.1.groupsSet
    ∧ (handleDeleteGroup sock s gRaw).2.1.groupMeta (jsTrim gRaw) = none
    ∧ (handleDeleteGroup sock s gRaw).2.1.groupMembers (jsTrim gRaw) = []
    ∧ (handleDeleteGroup sock s gRaw).2.1.groupMessages (jsTrim gRaw) = [] := by
  have hall : (s.groupMeta (jsTrim gRaw)).all (fun x => x.owner != u) = false := by
    simp [hmeta, howner]
  refine ⟨?_, ?_, ?_, ?_, ?_⟩ <;>
    simp [handleDeleteGroup, hu, hvalid, hexists, hall, sremStr, updAt]

/-- Witness for C10 at a concrete input: owner `alice` deletes `room1`
after having left it (`bob` is the only member). -/
theorem owner_delete_without_membership_witness :
    (handleDeleteGroup ⟨some "alice", []⟩ ownerGoneStore "room1").2.2 =
      [⟨.room "room1", .groupDeleted "room1" "alice"⟩]
    ∧ "room1" ∉ (handleDeleteGroup ⟨some "alice", []⟩ ownerGoneStore "room1").2.1.groupsSet
    ∧ (handleDeleteGroup ⟨some "alice", []⟩ ownerGoneStore "room1").2.1.groupMeta "room1" =
        none
    ∧ (handleDeleteGroup ⟨some "alice", []⟩ ownerGoneStore "room1").2.1.groupMembers
        "room1" = []
    ∧ (handleDeleteGroup ⟨some "alice", []⟩ ownerGoneStore "room1").2.1.groupMessages
        "room1" = [] :=
  owner_delete_without_membership ⟨some "alice", []⟩ ownerGoneStore "room1" "alice"
    ⟨"Room One", "alice", "t0"⟩ rfl (by decide) (by decide) rfl rfl (by decide)

/-! ## C4 -/

/-- C4 counterexample: `"a"` is lexically invalid (shorter than 2
characters) per the claimed rules, yet the server's claim handler accepts
it: no validation error is emitted, the live-claims set is touched and the
identity is bound to the session. -/
theorem claim_validation_counterexample :
    validateUsername "a" = some "Username must be at least 2 characters long"
    ∧ (handleUsernameSelection freshSession emptyStore "a").1.username = some "a"
    ∧ (handleUsernameSelection freshSession emptyStore "a").2.1.activeUsernames = ["a"]
    ∧ (handleUsernameSelection freshSession emptyStore "a").2.2 =
        [⟨.self, .usernameAccepted "a"⟩, ⟨.broadcastOthers, .userJoined "a"⟩] := by
  decide

/-- C4 (amended): lexical validation of an identity claim happens only in
the client caller (`main.js`): a form submission whose identity is empty
after trimming, shorter than 2 characters, longer than 20, or containing a
character outside `[a-zA-Z0-9_-]` is rejected there with a validation
error and no `select_username` request is emitted, so the live-claims set
is never touched for it; the server-side handler itself performs no
lexical validation (see the counterexample). -/
theorem client_validates_claims (input : String)
    (hbad : jsTrim input = "" ∨ (jsTrim input).length < 2 ∨
      20 < (jsTrim input).length ∨ ¬((jsTrim input).data.all isAllowedChar = true)) :
    ∃ e, handleUsernameSubmit input = .showUsernameError e := by
  cases hv : validateUsername input with
  | some e => exact ⟨e, by simp [handleUsernameSubmit, hv]⟩
  | none =>
      exfalso
      simp only [validateUsername] at hv
      split at hv
      · cases hv
      · split at hv
        · cases hv
        · split at hv
          · cases hv
          · split at hv
            · cases hv
            · rename_i h1 h2 h3 h4
              rcases hbad with h | h | h | h
              · exact h1 (by simp [h])
              · exact h2 h
              · exact h3 (by omega)
              · exact h4 (by simpa using h)

/-- Witness for C4 at a concrete input: the submission `"a"`. -/
theorem client_validates_claims_witness :
    ∃ e, handleUsernameSubmit "a" = .showUsernameError e :=
  client_validates_claims "a" (by decide)

/-! ## C7 -/

/-- C7: for `offset ≥ 0` and `limit > 0`, the paginated read returns the
slice starting `offset` entries back from the newest message (the head of
the stored list) of at most `limit` messages, reports
`hasMore = (count == limit)` and the continuation offset
`offset + count`, and changes nothing. -/
theorem readRange_spec (sock : Session) (s : ServerState) (offset limit : Nat)
    (h : 0 < limit) :
    loadPaginatedMessages sock s offset limit =
      (sock, s,
       [⟨.self, .paginatedMessages ((s.chatMessages.drop offset).take limit)
          (((s.chatMessages.drop offset).take limit).length == limit)
          (offset + ((s.chatMessages.drop offset).take limit).length)⟩])
    ∧ ((s.chatMessages.drop offset).take limit).length ≤ limit := by
  constructor
  · simp only [loadPaginatedMessages, lrange_nat _ _ _ h]
  · rw [List.length_take]
    omega

/-- Witness for C7 at a concrete input: a three-message log read with
`offset = 1`, `limit = 2`: both older messages come back, `hasMore` is
true (count equals the limit) and the continuation offset is 3. -/
theorem readRange_spec_witness :
    loadPaginatedMessages ⟨some "alice", []⟩
        ⟨[], [], fun _ => none, fun _ => [], fun _ => [],
         [⟨"alice", "c", "t3"⟩, ⟨"alice", "b", "t2"⟩, ⟨"alice", "a", "t1"⟩]⟩ 1 2 =
      (⟨some "alice", []⟩,
       ⟨[], [], fun _ => none, fun _ => [], fun _ => [],
        [⟨"alice", "c", "t3"⟩, ⟨"alice", "b", "t2"⟩, ⟨"alice", "a", "t1"⟩]⟩,
       [⟨.self, .paginatedMessages [⟨"alice", "b", "t2"⟩, ⟨"alice", "a", "t1"⟩] true 3⟩])
    ∧ ([⟨"alice", "b", "t2"⟩, ⟨"alice", "a", "t1"⟩] : List GMessage).length ≤ 2 :=
  readRange_spec ⟨some "alice", []⟩
    ⟨[], [], fun _ => none, fun _ => [], fun _ => [],
     [⟨"alice", "c", "t3"⟩, ⟨"alice", "b", "t2"⟩, ⟨"alice", "a", "t1"⟩]⟩ 1 2 (by decide)

/-! ## C8 -/

/-- C8: for any page size `L > 0`, paging through the global log from
offset 0 with the `readRange` semantics, following the returned
continuation offsets, concatenates to exactly the sequence the full-range
read returns, with `hasMore = false` on the final page; the last conjunct
checks each loop page against the response of `loadPaginatedMessages`
itself. -/
theorem pagination_roundtrip (sock : Session) (s : ServerState) (limit : Nat)
    (h : 0 < limit) :
    paginateFrom s.chatMessages limit 0 = (s.chatMessages, false)
    ∧ (loadHistoricalMessages sock s).2.2 =
        [⟨.self, .historicalMessages s.chatMessages⟩]
    ∧ ∀ offset, (loadPaginatedMessages sock s offset limit).2.2 =
        [⟨.self, .paginatedMessages
           (lrange s.chatMessages offset ((offset : Int) + limit - 1))
           ((lrange s.chatMessages offset ((offset : Int) + limit - 1)).length == limit)
           (offset + (lrange s.chatMessages offset ((offset : Int) + limit - 1)).length)⟩] := by
  refine ⟨?_, ?_, fun offset => rfl⟩
  · have := paginateFrom_drop s.chatMessages limit h s.chatMessages.length 0 (by omega)
    simpa using this
  · simp [loadHistoricalMessages, lrange_full]

/-- A three-message global log (newest first) and a store holding it. -/
def demoLog : List GMessage :=
  [⟨"alice", "c", "t3"⟩, ⟨"alice", "b", "t2"⟩, ⟨"alice", "a", "t1"⟩]

/-- A server state whose global log is `demoLog`. -/
def demoStore : ServerState :=
  ⟨[], [], fun _ => none, fun _ => [], fun _ => [], demoLog⟩

/-- Witness for C8 at a concrete input: `demoLog` paged with `L = 2`
reconstructs the full-read sequence and ends with `hasMore = false`. -/
theorem pagination_roundtrip_witness :
    paginateFrom demoLog 2 0 = (demoLog, false)
    ∧ (loadHistoricalMessages ⟨some "alice", []⟩ demoStore).2.2 =
        [⟨.self, .historicalMessages demoLog⟩]
    ∧ ∀ offset, (loadPaginatedMessages ⟨some "alice", []⟩ demoStore offset 2).2.2 =
        [⟨.self, .paginatedMessages
           (lrange demoLog offset ((offset : Int) + ((2 : Nat) : Int) - 1))
           ((lrange demoLog offset ((offset : Int) + ((2 : Nat) : Int) - 1)).length == 2)
           (offset +
             (lrange demoLog offset ((offset : Int) + ((2 : Nat) : Int) - 1)).length)⟩] :=
  pagination_roundtrip ⟨some "alice", []⟩ demoStore 2 (by decide)

/-! ## C6 -/

/-- C6 counterexample: a session claims `"ab"` successfully and then, while
still connected, claims `"cd"`: the second claim also succeeds and
re-binds the session's identity (and the first name stays in the
live-claims set), so the identity field is not set exactly once. -/
theorem identity_set_once_counterexample :
    (handleUsernameSelection freshSession emptyStore "ab").1.username = some "ab"
    ∧ (handleUsernameSelection (handleUsernameSelection freshSession emptyStore "ab").1
         (handleUsernameSelection freshSession emptyStore "ab").2.1 "cd").1.username =
        some "cd"
    ∧ (handleUsernameSelection (handleUsernameSelection freshSession emptyStore "ab").1
         (handleUsernameSelection freshSession emptyStore "ab").2.1 "cd").2.2 =
        [⟨.self, .usernameAccepted "cd"⟩, ⟨.broadcastOthers, .userJoined "cd"⟩]
    ∧ (handleUsernameSelection (handleUsernameSelection freshSession emptyStore "ab").1
         (handleUsernameSelection freshSession emptyStore "ab").2.1 "cd").2.1.activeUsernames =
        ["cd", "ab"] := by
  decide

/-- C6 (amended): a session's identity is `none` on connect and a
successful claim binds it to the claimed name — but the handler never
checks for an existing binding, so a later claim by the same session for a
free name re-binds the identity, leaving the earlier name in the
live-claims set; on disconnect only the session's current identity is
released. -/
theorem identity_lifecycle (sock : Session) (s : ServerState) (u : String) :
    freshSession.username = none
    ∧ (u ∉ s.activeUsernames →
        handleUsernameSelection sock s u =
          ({ sock with username := some u },
           { s with activeUsernames := u :: s.activeUsernames },
           [⟨.self, .usernameAccepted u⟩, ⟨.broadcastOthers, .userJoined u⟩]))
    ∧ (sock.username = some u →
        handleDisconnection sock s =
          ({ s with activeUsernames := sremStr s.activeUsernames u },
           [⟨.broadcastOthers, .userLeft u⟩])) := by
  refine ⟨rfl, fun hfree => ?_, fun hname => ?_⟩
  · simp [handleUsernameSelection, hfree]
  · simp [handleDisconnection, hname]

/-- Witness for C6 at a concrete input: a session currently bound to
`"cd"` while `"ab"` is also claimed: it may claim the free name `"zz"`
(re-binding), and disconnecting releases exactly `"cd"`. -/
theorem identity_lifecycle_witness :
    freshSession.username = none
    ∧ handleUsernameSelection ⟨some "cd", []⟩ abStore "zz" =
        (⟨some "zz", []⟩, ⟨["zz", "ab"], [], fun _ => none, fun _ => [], fun _ => [], []⟩,
         [⟨.self, .usernameAccepted "zz"⟩, ⟨.broadcastOthers, .userJoined "zz"⟩])
    ∧ handleDisconnection ⟨some "cd", []⟩ abStore =
        (⟨["ab"], [], fun _ => none, fun _ => [], fun _ => [], []⟩,
         [⟨.broadcastOthers, .userLeft "cd"⟩]) :=
  ⟨(identity_lifecycle ⟨some "cd", []⟩ abStore "zz").1,
   (identity_lifecycle ⟨some "cd", []⟩ abStore "zz").2.1 (by decide),
   (identity_lifecycle ⟨some "cd", []⟩ abStore "cd").2.2 rfl⟩

/-! ## C5 -/

/-- C5: at most one live session holds an identity.  First conjunct: in any
reachable system, while some live session holds `s`, a `select_username s`
dispatched for any other live session is answered with `username_taken`
and changes neither that session nor the server state.  Second conjunct: a
name can only leave the live-claims set through the disconnection of a
live session whose current identity it is. -/
theorem identity_exclusive :
    (∀ sys, Reachable sys → ∀ sidA sessA s, sys.sessions sidA = some sessA →
      sessA.username = some s → ∀ sidB sessB, sidB ≠ sidA →
      sys.sessions sidB = some sessB →
      dispatch sessB sys.server (.selectUsername s) =
        (sessB, sys.server,
         [⟨.self, .usernameTaken "Username is already taken. Please choose another."⟩]))
    ∧ (∀ sys a sys' u, Step sys a sys' → u ∈ sys.server.activeUsernames →
        u ∉ sys'.server.activeUsernames →
        ∃ sid sess, a = .disconnect sid ∧ sys.sessions sid = some sess ∧
          sess.username = some u) := by
  constructor
  · intro sys hreach sidA sessA s hsessA hname sidB sessB _ _
    have hmem : s ∈ sys.server.activeUsernames :=
      (reachable_inv sys hreach).1 sidA sessA s hsessA hname
    simp [dispatch, handleUsernameSelection, hmem]
  · intro sys a sys' u hstep hin hout
    cases hstep with
    | connect sid hnone => exact absurd hin hout
    | request sid sess req hsess =>
        exfalso
        rcases dispatch_bindings sess sys.server req with ⟨_, hact⟩ | ⟨v, _, _, _, hact⟩
        · exact hout (show u ∈ (dispatch sess sys.server req).2.1.activeUsernames from
            hact.symm ▸ hin)
        · exact hout (show u ∈ (dispatch sess sys.server req).2.1.activeUsernames from
            hact.symm ▸ List.mem_cons_of_mem v hin)
    | disconnect sid sess hsess =>
        cases hname : sess.username with
        | none =>
            exfalso
            apply hout
            show u ∈ (handleDisconnection sess sys.server).1.activeUsernames
            simpa [handleDisconnection, hname] using hin
        | some u₀ =>
            refine ⟨sid, sess, rfl, hsess, ?_⟩
            have : u = u₀ := by
              by_contra hne
              apply hout
              show u ∈ (handleDisconnection sess sys.server).1.activeUsernames
              simp [handleDisconnection, hname, sremStr, List.mem_filter, hin,
                bne_iff_ne, hne]
            rw [hname, this]

/-- Witness for C5 at a concrete input: reach a system where socket 0
holds `"ab"` and socket 1 is a second live session; socket 1's claim of
`"ab"` is answered `username_taken` with nothing changed. -/
theorem identity_exclusive_witness :
    dispatch freshSession
        (⟨["ab"], [], fun _ => none, fun _ => [], fun _ => [], []⟩ : ServerState)
        (.selectUsername "ab") =
      (freshSession, ⟨["ab"], [], fun _ => none, fun _ => [], fun _ => [], []⟩,
       [⟨.self, .usernameTaken "Username is already taken. Please choose another."⟩]) := by
  have h0 : Reachable (⟨fun _ => none, emptyStore⟩ : Sys) := Reachable.init emptyStore rfl
  have h1 : Reachable
      (⟨updSessions (fun _ => none) 0 (some freshSession), emptyStore⟩ : Sys) :=
    Reachable.step _ _ _ h0 (Step.connect _ 0 rfl)
  have h2 : Reachable
      (⟨updSessions (updSessions (fun _ => none) 0 (some freshSession)) 0
          (some (dispatch freshSession emptyStore (.selectUsername "ab")).1),
        (dispatch freshSession emptyStore (.selectUsername "ab")).2.1⟩ : Sys) :=
    Reachable.step _ _ _ h1 (Step.request _ 0 freshSession (.selectUsername "ab") rfl)
  have h3 : Reachable
      (⟨updSessions (updSessions (updSessions (fun _ => none) 0 (some freshSession)) 0
            (some (dispatch freshSession emptyStore (.selectUsername "ab")).1)) 1
          (some freshSession),
        (dispatch freshSession emptyStore (.selectUsername "ab")).2.1⟩ : Sys) :=
    Reachable.step _ _ _ h2 (Step.connect _ 1 rfl)
  exact identity_exclusive.1 _ h3 0 ⟨some "ab", []⟩ "ab" rfl rfl 1 freshSession
    (by decide) rfl

/-! ## C3 -/

/-- C3 counterexample, two zero-event families.  (a) Identified `bob`
sends a room message to the valid, existing room `room1` with a body that
trims to empty: the handler returns without emitting anything.
(b) Identified `alice` — a member of `room1` in the store, but with her
connection in no socket.io room — sends `"hi"` to `room1`: the send
*succeeds* (the message is appended to the room's log) and its only
response is the room broadcast, which misses her, so she also receives
zero outcome events. -/
theorem one_outcome_event_counterexample :
    (dispatch ⟨some "bob", []⟩ roomStore (.groupMessage "room1" "   " "t3")).2.2 = []
    ∧ ((dispatch ⟨some "bob", []⟩ roomStore
        (.groupMessage "room1" "   " "t3")).2.2.filter
          (receivesSelf ⟨some "bob", []⟩)).length = 0
    ∧ (dispatch ⟨some "alice", []⟩ roomStore (.groupMessage "room1" "hi" "t4")).2.2 =
        [⟨.room "room1", .groupMessage ⟨"room1", "alice", "hi", "t4"⟩⟩]
    ∧ (dispatch ⟨some "alice", []⟩ roomStore
        (.groupMessage "room1" "hi" "t4")).2.1.groupMessages "room1" =
        [⟨"room1", "alice", "hi", "t4"⟩]
    ∧ ((dispatch ⟨some "alice", []⟩ roomStore
        (.groupMessage "room1" "hi" "t4")).2.2.filter
          (receivesSelf ⟨some "alice", []⟩)).length = 0 := by
  decide

/-- C3 (amended): for every session, state and request, the number of
outcome events delivered to the requesting session — unicasts,
whole-server emits, and room broadcasts for rooms its connection is in
(`receivesSelf`) — is exactly one, except two zero-event families: the
requests `server.js` drops silently (`silentDrop`: an identified
session's room-scoped request with a malformed id, or a room message
whose body trims to empty), and the successful room-broadcast-only
operations whose broadcast misses the requester because its connection is
not in the room's channel (`missedBroadcast`). -/
theorem one_outcome_event_except_drops (sock : Session) (s : ServerState)
    (req : Request) :
    ((dispatch sock s req).2.2.filter (receivesSelf sock)).length =
      (if silentDrop sock req || missedBroadcast sock s req then 0 else 1) := by
  cases req with
  | selectUsername v =>
      by_cases hv : v ∈ s.activeUsernames <;>
        cases hu : sock.username <;>
          simp [dispatch, handleUsernameSelection, hv, hu, silentDrop, missedBroadcast,
            receivesSelf]
  | sendMessage m t =>
      cases hu : sock.username <;>
        simp [dispatch, handleMessage, hu, silentDrop, missedBroadcast, receivesSelf]
  | loadMore o l =>
      cases hu : sock.username <;>
        simp [dispatch, loadPaginatedMessages, hu, silentDrop, missedBroadcast,
          receivesSelf]
  | clearHistory =>
      cases hu : sock.username <;>
        simp [dispatch, clearChatHistory, hu, silentDrop, missedBroadcast, receivesSelf]
  | createGroup g n now =>
      cases hu : sock.username with
      | none =>
          simp [dispatch, handleCreateGroup, hu, silentDrop, missedBroadcast, receivesSelf]
      | some u =>
          by_cases hval : isValidGroupId (jsTrim g) = true
          · by_cases hex : jsTrim g ∈ s.groupsSet <;>
              simp [dispatch, handleCreateGroup, hu, hval, hex, silentDrop,
                missedBroadcast, receivesSelf]
          · simp [dispatch, handleCreateGroup, hu, hval, silentDrop, missedBroadcast,
              receivesSelf]
  | joinGroup g =>
      cases hu : sock.username with
      | none =>
          simp [dispatch, handleJoinGroup, hu, silentDrop, missedBroadcast, receivesSelf]
      | some u =>
          by_cases hval : isValidGroupId (jsTrim g) = true
          · by_cases hex : jsTrim g ∈ s.groupsSet <;>
              simp [dispatch, handleJoinGroup, hu, hval, hex, silentDrop,
                missedBroadcast, receivesSelf]
          · simp [dispatch, handleJoinGroup, hu, hval, silentDrop, missedBroadcast,
              receivesSelf]
  | leaveGroup g =>
      cases hu : sock.username with
      | none =>
          simp [dispatch, handleLeaveGroup, hu, silentDrop, missedBroadcast, receivesSelf]
      | some u =>
          by_cases hval : isValidGroupId (jsTrim g) = true
          · by_cases hmem : u ∈ s.groupMembers (jsTrim g) <;>
              simp [dispatch, handleLeaveGroup, hu, hval, hmem, silentDrop,
                missedBroadcast, receivesSelf]
          · simp [dispatch, handleLeaveGroup, hu, hval, silentDrop, missedBroadcast,
              receivesSelf]
  | groupMessage g m t =>
      cases hu : sock.username with
      | none =>
          simp [dispatch, handleGroupMessage, hu, silentDrop, missedBroadcast,
            receivesSelf]
      | some u =>
          by_cases hval : isValidGroupId (jsTrim g) = true
          · by_cases hempty : jsTrim m = ""
            · simp [dispatch, handleGroupMessage, hu, hval, hempty, silentDrop,
                missedBroadcast, receivesSelf]
            · by_cases hmem : u ∈ s.groupMembers (jsTrim g)
              · by_cases hsub : jsTrim g ∈ sock.rooms <;>
                  simp [dispatch, handleGroupMessage, hu, hval, hempty, hmem, hsub,
                    silentDrop, missedBroadcast, receivesSelf]
              · simp [dispatch, handleGroupMessage, hu, hval, hempty, hmem, silentDrop,
                  missedBroadcast, receivesSelf]
          · simp [dispatch, handleGroupMessage, hu, hval, silentDrop, missedBroadcast,
              receivesSelf]
  | clearGroupHistory g =>
      cases hu : sock.username with
      | none =>
          simp [dispatch, handleClearGroupHistory, hu, silentDrop, missedBroadcast,
            receivesSelf]
      | some u =>
          by_cases hval : isValidGroupId (jsTrim g) = true
          · by_cases hmem : u ∈ s.groupMembers (jsTrim g)
            · by_cases hsub : jsTrim g ∈ sock.rooms <;>
                simp [dispatch, handleClearGroupHistory, hu, hval, hmem, hsub,
                  silentDrop, missedBroadcast, receivesSelf]
            · simp [dispatch, handleClearGroupHistory, hu, hval, hmem, silentDrop,
                missedBroadcast, receivesSelf]
          · simp [dispatch, handleClearGroupHistory, hu, hval, silentDrop,
              missedBroadcast, receivesSelf]
  | deleteGroup g =>
      cases hu : sock.username with
      | none =>
          simp [dispatch, handleDeleteGroup, hu, silentDrop, missedBroadcast, receivesSelf]
      | some u =>
          by_cases hval : isValidGroupId (jsTrim g) = true
          · by_cases hex : jsTrim g ∈ s.groupsSet
            · by_cases hall : (s.groupMeta (jsTrim g)).all (fun x => x.owner != u) = true
              · simp [dispatch, handleDeleteGroup, hu, hval, hex, hall, silentDrop,
                  missedBroadcast, receivesSelf]
              · by_cases hsub : jsTrim g ∈ sock.rooms <;>
                  simp [dispatch, handleDeleteGroup, hu, hval, hex, hall, hsub,
                    silentDrop, missedBroadcast, receivesSelf]
            · simp [dispatch, handleDeleteGroup, hu, hval, hex, silentDrop,
                missedBroadcast, receivesSelf]
          · simp [dispatch, handleDeleteGroup, hu, hval, silentDrop, missedBroadcast,
              receivesSelf]
  | requestGlobalHistory =>
      cases hu : sock.username <;>
        simp [dispatch, loadHistoricalMessages, hu, silentDrop, missedBroadcast,
          receivesSelf]

/-- Witness for C3 at a concrete input: member `alice`, whose connection is
in the `room1` channel, sends `"hi"` to `room1` — neither exception
applies and the count is one. -/
theorem one_outcome_event_except_drops_witness :
    ((dispatch ⟨some "alice", ["room1"]⟩ roomStore
        (.groupMessage "room1" "hi" "t4")).2.2.filter
      (receivesSelf ⟨some "alice", ["room1"]⟩)).length =
      (if silentDrop ⟨some "alice", ["room1"]⟩ (.groupMessage "room1" "hi" "t4") ||
          missedBroadcast ⟨some "alice", ["room1"]⟩ roomStore
            (.groupMessage "room1" "hi" "t4")
       then 0 else 1) :=
  one_outcome_event_except_drops ⟨some "alice", ["room1"]⟩ roomStore
    (.groupMessage "room1" "hi" "t4")

end ChatApp
